import Mathlib

/-!
Verification development for the resource lifecycle core of erlang-rocksdb
(file c_src/refobjects.h).

The only file of the repository available is the header c_src/refobjects.h.
The class ReferencePtr is defined inline in that header (lines 133 to 178),
so its embedding below is a direct translation of source code.  The bodies
of the other member functions (RefObject::RefInc, RefObject::RefDec,
ErlRefObject::InitiateCloseRequest, ErlRefObject::AwaitCloseAndDestructor,
DbObject::AddReference and friends, the Shutdown methods) live in a .cc
file that is not part of the sources given, so those are modelled from the
specification; each such definition carries a doc comment saying so.
Structural facts (which fields each class has, return types of the
registration methods, the documented values of m_CloseRequested) are taken
from the header and are authoritative.
-/

namespace ERocksDB

/-- Identifier of a reference counted object.  Pointers are modelled as
`Option Nat`: `none` is the C NULL pointer, `some t` a pointer to the
object with identity `t`. -/
abbrev Target := Nat

/-- The collection of reference counts of all objects, indexed by object
identity.  `counts t` is the value of `m_RefCount` of object `t`. -/
structure World where
  counts : Target → Nat

/-- Modelled from the spec: `RefObject::RefInc` (declared at line 75 of
refobjects.h, body not under src/).  The spec section 3 describes the
RefCounter as an atomic unsigned counter whose increment returns the new
count; overflow is declared a non-goal there, so the count is a `Nat`. -/
def refInc (w : World) (t : Target) : World :=
  ⟨fun x => if x = t then w.counts t + 1 else w.counts x⟩

/-- Modelled from the spec: `RefObject::RefDec` (declared at line 77 of
refobjects.h, body not under src/).  The spec section 3 describes the
decrement as returning the new count; the destruction trigger at zero is
modelled separately in the system machine below. -/
def refDecW (w : World) (t : Target) : World :=
  ⟨fun x => if x = t then w.counts t - 1 else w.counts x⟩

/-- State of a `ReferencePtr<TargetT>`: its single member `TargetT * t`
(line 136 of refobjects.h). -/
abbrev PtrState := Option Target

namespace ReferencePtr

/-- Default constructor, lines 139 to 141 of refobjects.h: `t(NULL)`,
no count is touched. -/
def mkDefault : PtrState := none

/-- Constructor from a raw pointer, lines 143 to 148 of refobjects.h:
`t(_t)` then `if (NULL!=t) t->RefInc();`. -/
def mkFrom (p : PtrState) (w : World) : PtrState × World :=
  match p with
  | none => (none, w)
  | some t => (some t, refInc w t)

/-- Copy constructor, lines 150 to 151 of refobjects.h:
`t=rhs.t; if (NULL!=t) t->RefInc();`. -/
def copy (rhs : PtrState) (w : World) : PtrState × World :=
  match rhs with
  | none => (none, w)
  | some t => (some t, refInc w t)

/-- Destructor, lines 153 to 157 of refobjects.h:
`if (NULL!=t) t->RefDec();`. -/
def destroy (t : PtrState) (w : World) : World :=
  match t with
  | none => w
  | some x => refDecW w x

/-- Member `assign`, lines 159 to 169 of refobjects.h: when the argument
differs from the current pointee, decrement the old pointee when non null,
install the argument, increment it when non null; when the argument equals
the current pointee, do nothing. -/
def assign (t : PtrState) (p : PtrState) (w : World) : PtrState × World :=
  if p = t then (t, w)
  else
    let w1 := match t with
      | none => w
      | some x => refDecW w x
    let w2 := match p with
      | none => w1
      | some y => refInc w1 y
    (p, w2)

/-- Member `get`, line 171 of refobjects.h: returns the raw pointer. -/
def get (t : PtrState) : PtrState := t

end ReferencePtr

/-!
## The close protocol flag machine

The header documents the flag at line 95:
`volatile uint32_t m_CloseRequested;  // 1 once api close called, 2 once
thread starts destructor, 3 destructor done`, with 0 the freshly
constructed value.  The bodies of `InitiateCloseRequest`,
`AwaitCloseAndDestructor` and `ErlRefObject::RefDec` are not under src/,
so the transitions are modelled from the spec, section 4.1:
OPEN to REQUESTED by a compare and swap in `InitiateCloseRequest`;
REQUESTED to DESTRUCTING by the counted decrement that observes the count
reaching zero; DESTRUCTING to DONE as the last action of the destructor.
-/

/-- Modelled from the spec: the flag transition of
`ErlRefObject::InitiateCloseRequest` (declared at line 117 of
refobjects.h, body not under src/).  Spec section 4.1: a compare and swap
from OPEN (0) to REQUESTED (1) that returns true exactly when it is the
one that performed the transition. -/
def initiateStep (s : Nat) : Bool × Nat :=
  if s = 0 then (true, 1) else (false, s)

/-- The operations of the close protocol named by the spec, each acting on
the flag `m_CloseRequested`. -/
inductive CloseOp : Type
  | initiateClose
  | shutdownBody
  | refDecReachZero
  | refDecPositive
  | destructorDone
  | awaitClose
deriving DecidableEq

/-- Modelled from the spec: the effect of each protocol operation on the
flag `m_CloseRequested` (bodies not under src/; values of the flag from
the comment at line 95 of refobjects.h).  `Shutdown`, a decrement that
does not reach zero, and `AwaitCloseAndDestructor` do not write the flag;
the decrement that reaches zero performs the compare and swap from 1 to 2
before running the destructor; the destructor sets the flag to 3 as its
last action. -/
def stepFlag : CloseOp → Nat → Nat
  | .initiateClose, s => (initiateStep s).2
  | .shutdownBody, s => s
  | .refDecReachZero, s => if s = 1 then 2 else s
  | .refDecPositive, s => s
  | .destructorDone, _ => 3
  | .awaitClose, s => s

/-- Run a sequence of protocol operations on the flag. -/
def runFlag (s : Nat) : List CloseOp → Nat
  | [] => s
  | op :: ops => runFlag (stepFlag op s) ops

/-- Number of `InitiateCloseRequest` calls in the sequence that return
true, that is the number of winners of the close race. -/
def winners (s : Nat) : List CloseOp → Nat
  | [] => 0
  | .initiateClose :: ops =>
      (if (initiateStep s).1 then 1 else 0) + winners (stepFlag .initiateClose s) ops
  | op :: ops => winners (stepFlag op s) ops

/-- Modelled from the spec: the wait loop of
`ErlRefObject::AwaitCloseAndDestructor` (declared at line 119 of
refobjects.h, body not under src/).  Spec section 4.1: the caller blocks
on the condition variable until the flag reaches DONE (3).  The argument
is the sequence of flag values the waiting thread observes at successive
wakeups; the result is the index of the observation at which the call
returns, or `none` when the flag is never observed at 3 and the call
never returns. -/
def awaitTrace : List Nat → Option Nat
  | [] => none
  | f :: rest => if f = 3 then some 0 else (awaitTrace rest).map (· + 1)

/-!
## The root object and its four dependent registries

`DbObject` (lines 186 to 244 of refobjects.h) carries four registries
`m_ItrList`, `m_SnapshotList`, `m_ColumnFamilyList`, `m_TLogItrList`
(lines 196 to 199), each a `std::list` of raw pointers guarded by its own
mutex.  Registered dependents are modelled by their identity (a `Nat`
standing for the pointer value).  The state below joins the registries
with the reference count and the close flag of the root; `destructorRan`
records that the physical destructor of the root has run.
-/

/-- State of one `DbObject` together with its lifecycle bookkeeping.
Field names follow lines 95, 68 and 196 to 199 of refobjects.h. -/
structure DbState where
  m_CloseRequested : Nat
  m_RefCount : Nat
  m_ItrList : List Nat
  m_SnapshotList : List Nat
  m_ColumnFamilyList : List Nat
  m_TLogItrList : List Nat
  destructorRan : Bool
deriving DecidableEq

/-- Modelled from the spec: a fresh root (spec section 4.2, `create`):
refcount starts at 1, the internal open reference; registries empty;
flag at 0. -/
def initDb : DbState :=
  { m_CloseRequested := 0
    m_RefCount := 1
    m_ItrList := []
    m_SnapshotList := []
    m_ColumnFamilyList := []
    m_TLogItrList := []
    destructorRan := false }

/-- Modelled from the spec: body of `DbObject::AddReference` (declared
with return type `bool` at line 218 of refobjects.h, body not under
src/).  Spec section 4.2: under the registry mutex, if close was already
requested return failure without inserting, otherwise insert and return
success. -/
def AddReference (s : DbState) (itr : Nat) : Bool × DbState :=
  if s.m_CloseRequested = 0 then
    (true, { s with m_ItrList := s.m_ItrList ++ [itr] })
  else
    (false, s)

/-- Modelled from the spec: body of `DbObject::AddColumnFamilyReference`
(declared at line 212 of refobjects.h, body not under src/).  The src
declaration returns `void`, so unlike `AddReference` this operation can
signal no failure to its caller; it is modelled as the unconditional
insertion that the void signature permits. -/
def AddColumnFamilyReference (s : DbState) (cf : Nat) : DbState :=
  { s with m_ColumnFamilyList := s.m_ColumnFamilyList ++ [cf] }

/-- Modelled from the spec: body of `DbObject::AddSnapshotReference`
(declared at line 223 of refobjects.h, body not under src/).  The src
declaration returns `void`; modelled as the unconditional insertion the
void signature permits. -/
def AddSnapshotReference (s : DbState) (snap : Nat) : DbState :=
  { s with m_SnapshotList := s.m_SnapshotList ++ [snap] }

/-- Modelled from the spec: body of `DbObject::AddTLogReference`
(declared at line 228 of refobjects.h, body not under src/).  The src
declaration returns `void`; modelled as the unconditional insertion the
void signature permits. -/
def AddTLogReference (s : DbState) (tlog : Nat) : DbState :=
  { s with m_TLogItrList := s.m_TLogItrList ++ [tlog] }

/-- Modelled from the spec: body of `DbObject::RemoveReference` (declared
at line 220 of refobjects.h, body not under src/).  Spec section 4.2:
under the registry mutex, unconditionally remove; `std::list::remove`
erases every element equal to the argument. -/
def RemoveReference (s : DbState) (itr : Nat) : DbState :=
  { s with m_ItrList := s.m_ItrList.filter (fun x => x != itr) }

/-- Modelled from the spec: body of
`DbObject::RemoveColumnFamilyReference` (declared at line 214 of
refobjects.h, body not under src/); unconditional removal. -/
def RemoveColumnFamilyReference (s : DbState) (cf : Nat) : DbState :=
  { s with m_ColumnFamilyList := s.m_ColumnFamilyList.filter (fun x => x != cf) }

/-- Modelled from the spec: body of `DbObject::RemoveSnapshotReference`
(declared at line 225 of refobjects.h, body not under src/);
unconditional removal. -/
def RemoveSnapshotReference (s : DbState) (snap : Nat) : DbState :=
  { s with m_SnapshotList := s.m_SnapshotList.filter (fun x => x != snap) }

/-- Modelled from the spec: body of `DbObject::RemoveTLogReference`
(declared at line 230 of refobjects.h, body not under src/);
unconditional removal. -/
def RemoveTLogReference (s : DbState) (tlog : Nat) : DbState :=
  { s with m_TLogItrList := s.m_TLogItrList.filter (fun x => x != tlog) }

/-- The four dependent resource categories of the root. -/
inductive Cat : Type
  | itr
  | snap
  | cf
  | tlog
deriving DecidableEq, Fintype

/-- The registry of a category. -/
def regList (s : DbState) : Cat → List Nat
  | .itr => s.m_ItrList
  | .snap => s.m_SnapshotList
  | .cf => s.m_ColumnFamilyList
  | .tlog => s.m_TLogItrList

/-- Dispatch of the add operations by category, forgetting the boolean of
the iterator case. -/
def addDep (s : DbState) : Cat → Nat → DbState
  | .itr, d => (AddReference s d).2
  | .snap, d => AddSnapshotReference s d
  | .cf, d => AddColumnFamilyReference s d
  | .tlog, d => AddTLogReference s d

/-- Dispatch of the remove operations by category
(`removeDependentReference` of the spec). -/
def removeDep (s : DbState) : Cat → Nat → DbState
  | .itr, d => RemoveReference s d
  | .snap, d => RemoveSnapshotReference s d
  | .cf, d => RemoveColumnFamilyReference s d
  | .tlog, d => RemoveTLogReference s d

/-- Modelled from the spec: `ErlRefObject::RefDec` of the root (declared
at line 110 of refobjects.h, body not under src/).  Spec section 4.1: the
counted decrement that observes the count reaching zero, when close was
requested, runs the physical destructor, whose last action sets the flag
to DONE (3, per the comment at line 95 of refobjects.h). -/
def refDecRoot (s : DbState) : DbState :=
  let c := s.m_RefCount - 1
  if c = 0 ∧ s.m_CloseRequested = 1 then
    { s with m_RefCount := c, m_CloseRequested := 3, destructorRan := true }
  else
    { s with m_RefCount := c }

/-- The lifecycle operations of the system machine: creation of a
dependent of a category, teardown of a dependent, and the close request
on the root itself. -/
inductive SysOp : Type
  | createDep (c : Cat) (d : Nat)
  | teardownDep (c : Cat) (d : Nat)
  | rootClose
deriving DecidableEq

/-- Modelled from the spec: creation of a dependent (spec section 4.3).
Given a live root (positive refcount), a fresh dependent registers
through the category add operation and takes one counted reference
through its `ReferencePtr<DbObject>` member.  For the iterator category
the registration is rejected after close was requested and the dependent
is then not constructed, leaving the state unchanged; the other three
categories have void add operations that cannot reject.  Distinct live
dependents are distinct pointers, so a dependent already registered is
not created again. -/
def createDepStep (s : DbState) (c : Cat) (d : Nat) : DbState :=
  if s.m_RefCount = 0 ∨ d ∈ regList s c then s
  else if c = Cat.itr ∧ s.m_CloseRequested ≠ 0 then s
  else { addDep s c d with m_RefCount := s.m_RefCount + 1 }

/-- Modelled from the spec: teardown of a registered dependent (spec
sections 4.1 and 4.3).  The winner of the close race of the dependent
releases its native sub-handle, deregisters from the root, and then
releases its counted reference to the root. -/
def teardownDepStep (s : DbState) (c : Cat) (d : Nat) : DbState :=
  if d ∈ regList s c then refDecRoot (removeDep s c d) else s

/-- Modelled from the spec: the close request on the root (spec sections
4.1 and 4.2).  The first close request moves the flag to REQUESTED, runs
the root `Shutdown` (whose cascade only requests the close of dependents,
leaving their teardown to their own later steps), and releases the
internal open reference. -/
def rootCloseStep (s : DbState) : DbState :=
  if s.m_CloseRequested = 0 then refDecRoot { s with m_CloseRequested := 1 }
  else s

/-- Modelled from the spec: one step of the system machine. -/
def sysStep (s : DbState) : SysOp → DbState
  | .createDep c d => createDepStep s c d
  | .teardownDep c d => teardownDepStep s c d
  | .rootClose => rootCloseStep s

/-- Run a sequence of system operations from a state. -/
def sysRun (s : DbState) : List SysOp → DbState
  | [] => s
  | op :: ops => sysRun (sysStep s op) ops

/-- The dependent is present in at least one of the four registries of
the root. -/
def inAnyRegistry (s : DbState) (d : Nat) : Prop :=
  d ∈ s.m_ItrList ∨ d ∈ s.m_SnapshotList ∨ d ∈ s.m_ColumnFamilyList ∨ d ∈ s.m_TLogItrList

instance (s : DbState) (d : Nat) : Decidable (inAnyRegistry s d) := by
  unfold inAnyRegistry; infer_instance

/-!
## Construction of dependents

Spec section 4.3: construction of a dependent, given a live root and a
native sub-handle, attempts the category registration; if the
registration fails, construction itself fails.  Only the iterator
registration (`AddReference`, the sole add operation of the header with a
`bool` return, line 218) can fail; the other three add operations return
`void`, so those constructions cannot observe a failure.
-/

/-- Modelled from the spec: `ItrObject::CreateItrObject` (declared at
line 343 of refobjects.h, body not under src/): attempt `AddReference`;
on success the new object takes one counted reference to the root and is
returned, on failure no object is constructed. -/
def CreateItrObject (s : DbState) (d : Nat) : Option Nat × DbState :=
  match AddReference s d with
  | (true, s1) => (some d, { s1 with m_RefCount := s1.m_RefCount + 1 })
  | (false, s1) => (none, s1)

/-- Modelled from the spec:
`ColumnFamilyObject::CreateColumnFamilyObject` (declared at line 267 of
refobjects.h, body not under src/): the registration through the void
`AddColumnFamilyReference` cannot fail, so the object is always
constructed and takes one counted reference to the root. -/
def CreateColumnFamilyObject (s : DbState) (d : Nat) : Option Nat × DbState :=
  (some d, { AddColumnFamilyReference s d with m_RefCount := s.m_RefCount + 1 })

/-- Modelled from the spec: `SnapshotObject::CreateSnapshotObject`
(declared at line 304 of refobjects.h, body not under src/): the
registration through the void `AddSnapshotReference` cannot fail, so the
object is always constructed and takes one counted reference to the
root. -/
def CreateSnapshotObject (s : DbState) (d : Nat) : Option Nat × DbState :=
  (some d, { AddSnapshotReference s d with m_RefCount := s.m_RefCount + 1 })

/-- Modelled from the spec: `TLogItrObject::CreateTLogItrObject`
(declared at line 383 of refobjects.h, body not under src/): the
registration through the void `AddTLogReference` cannot fail, so the
object is always constructed and takes one counted reference to the
root. -/
def CreateTLogItrObject (s : DbState) (d : Nat) : Option Nat × DbState :=
  (some d, { AddTLogReference s d with m_RefCount := s.m_RefCount + 1 })

/-!
## The teardown sequence of a dependent
-/

/-- Local state of one dependent: its category, its native sub-handle
(`m_ColumnFamily`, `m_Snapshot`, `m_Iterator` or `m_Iter` in the header),
and whether its `ReferencePtr<DbObject>` member `m_DbPtr` still holds its
counted reference to the root. -/
structure DepState where
  cat : Cat
  subHandle : Option Nat
  holdsDbRef : Bool
deriving DecidableEq

/-- The three externally visible effects of the teardown of a dependent,
in the order the spec section 4.3 gives them. -/
inductive TdEvent : Type
  | releasedSubHandle
  | removedFromRegistry
  | releasedRootRef
deriving DecidableEq

/-- Modelled from the spec: the `Shutdown` of a dependent followed by its
destructor (spec section 4.3; the bodies of
`ColumnFamilyObject::Shutdown`, `SnapshotObject::Shutdown`,
`ItrObject::Shutdown` and `TLogItrObject::Shutdown`, declared at lines
263, 300, 339 and 379 of refobjects.h, are not under src/): first release
the kind specific native sub-handle, then call the category remove
operation on the root, and only then release the counted reference to the
root, through the destructor of the member `m_DbPtr`.  The result lists
each event with the dependent local state and the root state at the
completion of that event. -/
def shutdownTrace (ds : DepState) (s : DbState) (d : Nat) :
    List (TdEvent × DepState × DbState) :=
  let ds1 : DepState := { ds with subHandle := none }
  let s2 : DbState := removeDep s ds.cat d
  let ds3 : DepState := { ds1 with holdsDbRef := false }
  let s3 : DbState := refDecRoot s2
  [(TdEvent.releasedSubHandle, ds1, s),
   (TdEvent.removedFromRegistry, ds1, s2),
   (TdEvent.releasedRootRef, ds3, s3)]

/-!
## Structure of the classes of refobjects.h

The facts below are read directly off the header: which classes own a
`ReferencePtr` member and to which class it points, and which classes own
registry fields (a mutex guarded `std::list` of pointers to another
class).
-/

/-- The classes derived from `ErlRefObject` in refobjects.h. -/
inductive ClassName : Type
  | dbObject
  | columnFamilyObject
  | snapshotObject
  | itrObject
  | tLogItrObject
  | backupEngineObject
deriving DecidableEq

/-- The targets of the `ReferencePtr` members of each class, read off the
header: `DbObject` has none (lines 186 to 244); `ColumnFamilyObject`
holds `ReferencePtr<DbObject> m_DbPtr` (line 253); `SnapshotObject`
likewise (line 287); `ItrObject` likewise (line 326); `TLogItrObject`
likewise (line 369); `BackupEngineObject` has none (lines 400 to 428). -/
def countedRefFields : ClassName → List ClassName
  | .dbObject => []
  | .columnFamilyObject => [.dbObject]
  | .snapshotObject => [.dbObject]
  | .itrObject => [.dbObject]
  | .tLogItrObject => [.dbObject]
  | .backupEngineObject => []

/-- The element classes of the registry fields of each class, read off
the header: `DbObject` holds `m_ItrList`, `m_SnapshotList`,
`m_ColumnFamilyList` and `m_TLogItrList` (lines 196 to 199);
`SnapshotObject` holds `m_ItrMutex` and
`std::list<class ItrObject *> m_ItrList` (lines 289 to 290); no other
class holds a registry. -/
def registryElemTypes : ClassName → List ClassName
  | .dbObject => [.itrObject, .snapshotObject, .columnFamilyObject, .tLogItrObject]
  | .columnFamilyObject => []
  | .snapshotObject => [.itrObject]
  | .itrObject => []
  | .tLogItrObject => []
  | .backupEngineObject => []

/-- Total number of entries over the four registries of the root. -/
def regTotal (s : DbState) : Nat :=
  s.m_ItrList.length + s.m_SnapshotList.length
    + s.m_ColumnFamilyList.length + s.m_TLogItrList.length

/-- One while the internal open reference of the root is still held,
that is while no close was requested. -/
def openBit (s : DbState) : Nat :=
  if s.m_CloseRequested = 0 then 1 else 0

/-- The invariant of the system machine: the reference count equals the
internal open reference plus one counted reference per registered
dependent; once the physical destructor ran, the count is zero and the
registries are empty; and registries never hold duplicates, since
distinct live dependents are distinct pointers. -/
def SysInv (s : DbState) : Prop :=
  s.m_RefCount = openBit s + regTotal s
  ∧ (s.destructorRan = true → s.m_RefCount = 0 ∧ regTotal s = 0)
  ∧ s.m_ItrList.Nodup ∧ s.m_SnapshotList.Nodup
  ∧ s.m_ColumnFamilyList.Nodup ∧ s.m_TLogItrList.Nodup

/-- The four dependent categories of the spec: column family, snapshot,
iterator, log iterator. -/
def isDependentCategory : ClassName → Bool
  | .columnFamilyObject => true
  | .snapshotObject => true
  | .itrObject => true
  | .tLogItrObject => true
  | _ => false

/-!
## Theorems
-/

/-- C7.  ReferencePtr performs exactly the counted pointer protocol:
construction from a non null raw pointer increments the count of that
target by one and touches no other count; the copy constructor does the
same on the count of the pointee of its source; the destructor of a
ReferencePtr with a non null pointee decrements its count by one and
touches no other; assign with an argument different from the current
pointee yields the argument as new pointee, decrements the old non null
pointee, increments the new non null pointee, and touches no other count;
assign with an argument equal to the current pointee changes nothing. -/
theorem c7_reference_ptr_counting :
    (∀ (w : World) (t : Target),
        (ReferencePtr.mkFrom (some t) w).1 = some t
      ∧ (ReferencePtr.mkFrom (some t) w).2.counts t = w.counts t + 1
      ∧ ∀ x, x ≠ t → (ReferencePtr.mkFrom (some t) w).2.counts x = w.counts x)
  ∧ (∀ (w : World) (t : Target),
        (ReferencePtr.copy (some t) w).1 = some t
      ∧ (ReferencePtr.copy (some t) w).2.counts t = w.counts t + 1
      ∧ ∀ x, x ≠ t → (ReferencePtr.copy (some t) w).2.counts x = w.counts x)
  ∧ (∀ (w : World) (t : Target), 0 < w.counts t →
        (ReferencePtr.destroy (some t) w).counts t + 1 = w.counts t
      ∧ ∀ x, x ≠ t → (ReferencePtr.destroy (some t) w).counts x = w.counts x)
  ∧ (∀ (w : World) (t p : PtrState), p ≠ t →
        (ReferencePtr.assign t p w).1 = p
      ∧ (∀ x, t = some x → 0 < w.counts x →
            (ReferencePtr.assign t p w).2.counts x + 1 = w.counts x)
      ∧ (∀ y, p = some y →
            (ReferencePtr.assign t p w).2.counts y = w.counts y + 1)
      ∧ (∀ x, t ≠ some x → p ≠ some x →
            (ReferencePtr.assign t p w).2.counts x = w.counts x))
  ∧ (∀ (w : World) (t : PtrState), ReferencePtr.assign t t w = (t, w)) := by
  refine ⟨?_, ?_, ?_, ?_, ?_⟩
  · intro w t
    refine ⟨rfl, by simp [ReferencePtr.mkFrom, refInc], ?_⟩
    intro x hx
    simp [ReferencePtr.mkFrom, refInc, hx]
  · intro w t
    refine ⟨rfl, by simp [ReferencePtr.copy, refInc], ?_⟩
    intro x hx
    simp [ReferencePtr.copy, refInc, hx]
  · intro w t hpos
    refine ⟨?_, ?_⟩
    · simp only [ReferencePtr.destroy, refDecW]
      simp
      omega
    · intro x hx
      simp [ReferencePtr.destroy, refDecW, hx]
  · intro w t p hpt
    refine ⟨?_, ?_, ?_, ?_⟩
    · simp [ReferencePtr.assign, hpt]
    · intro x ht hpos
      subst ht
      rcases p with _ | y
      · simp [ReferencePtr.assign, hpt, refDecW]
        omega
      · have hyx : y ≠ x := by
          intro h
          exact hpt (by simp [h])
        simp [ReferencePtr.assign, hpt, refDecW, refInc, hyx, Ne.symm hyx]
        omega
    · intro y hpy
      subst hpy
      rcases t with _ | x
      · simp [ReferencePtr.assign, hpt, refInc]
      · have hyx : y ≠ x := by
          intro h
          exact hpt (by simp [h])
        simp [ReferencePtr.assign, hpt, refDecW, refInc, hyx]
    · intro x htx hpx
      rcases t with _ | a <;> rcases p with _ | b
      · exact absurd rfl hpt
      · have hbx : b ≠ x := by
          intro h
          exact hpx (by simp [h])
        simp [ReferencePtr.assign, hpt, refInc, hbx, Ne.symm hbx]
      · have hax : a ≠ x := by
          intro h
          exact htx (by simp [h])
        simp [ReferencePtr.assign, hpt, refDecW, hax, Ne.symm hax]
      · have hbx : b ≠ x := by
          intro h
          exact hpx (by simp [h])
        have hax : a ≠ x := by
          intro h
          exact htx (by simp [h])
        simp [ReferencePtr.assign, hpt, refDecW, refInc, hax, hbx,
          Ne.symm hax, Ne.symm hbx]
  · intro w t
    simp [ReferencePtr.assign]

/-- Witness for C7 at concrete inputs. -/
theorem c7_witness :
    (ReferencePtr.destroy (some 0) ⟨fun _ => 2⟩).counts 0 + 1 = 2
  ∧ (ReferencePtr.assign (some 0) (some 1) ⟨fun _ => 2⟩).1 = some 1
  ∧ (ReferencePtr.assign (some 0) (some 1) ⟨fun _ => 2⟩).2.counts 0 + 1 = 2
  ∧ (ReferencePtr.assign (some 0) (some 1) ⟨fun _ => 2⟩).2.counts 1 = 2 + 1
  ∧ (ReferencePtr.assign (some 0) (some 1) ⟨fun _ => 2⟩).2.counts 5 = 2 :=
  ⟨(c7_reference_ptr_counting.2.2.1 ⟨fun _ => 2⟩ 0 (by decide)).1,
   (c7_reference_ptr_counting.2.2.2.1 ⟨fun _ => 2⟩ (some 0) (some 1) (by decide)).1,
   (c7_reference_ptr_counting.2.2.2.1 ⟨fun _ => 2⟩ (some 0) (some 1) (by decide)).2.1
      0 rfl (by decide),
   (c7_reference_ptr_counting.2.2.2.1 ⟨fun _ => 2⟩ (some 0) (some 1) (by decide)).2.2.1
      1 rfl,
   (c7_reference_ptr_counting.2.2.2.1 ⟨fun _ => 2⟩ (some 0) (some 1) (by decide)).2.2.2
      5 (by decide) (by decide)⟩

/-- C9.  ReferencePtr is total on null: the default constructor, the
constructor from NULL, the copy of a null ReferencePtr, the destructor of
a null ReferencePtr and assign of NULL to a null ReferencePtr neither
touch any reference count nor produce a non null pointee; get on a null
ReferencePtr returns NULL; after assigning NULL to any ReferencePtr the
pointee is NULL and destroying it has no effect on any count. -/
theorem c9_reference_ptr_null_total :
    ReferencePtr.mkDefault = none
  ∧ (∀ w : World, ReferencePtr.mkFrom none w = (none, w))
  ∧ (∀ w : World, ReferencePtr.copy none w = (none, w))
  ∧ (∀ w : World, ReferencePtr.destroy none w = w)
  ∧ (∀ w : World, ReferencePtr.assign none none w = (none, w))
  ∧ ReferencePtr.get none = none
  ∧ (∀ (w : World) (t : PtrState),
        (ReferencePtr.assign t none w).1 = none
      ∧ ReferencePtr.get (ReferencePtr.assign t none w).1 = none
      ∧ ReferencePtr.destroy (ReferencePtr.assign t none w).1
          (ReferencePtr.assign t none w).2 = (ReferencePtr.assign t none w).2) := by
  refine ⟨rfl, fun w => rfl, fun w => rfl, fun w => rfl, ?_, rfl, ?_⟩
  · intro w
    simp [ReferencePtr.assign]
  · intro w t
    rcases t with _ | x
    · exact ⟨by simp [ReferencePtr.assign], by simp [ReferencePtr.assign, ReferencePtr.get],
        by simp [ReferencePtr.assign, ReferencePtr.destroy]⟩
    · refine ⟨?_, ?_, ?_⟩
      · simp [ReferencePtr.assign]
      · simp [ReferencePtr.assign, ReferencePtr.get]
      · simp [ReferencePtr.assign, ReferencePtr.destroy]

/-- No protocol operation moves a non zero flag back to zero. -/
lemma stepFlag_ne_zero {s : Nat} (h : s ≠ 0) (op : CloseOp) : stepFlag op s ≠ 0 := by
  cases op <;> (simp [stepFlag, initiateStep, h]; try (first | (split <;> omega) | omega))

/-- After the flag leaves zero, no later `InitiateCloseRequest` wins. -/
lemma winners_eq_zero (ops : List CloseOp) : ∀ {s : Nat}, s ≠ 0 → winners s ops = 0 := by
  induction ops with
  | nil => intro s _; rfl
  | cons op rest ih =>
    intro s h
    cases op with
    | initiateClose =>
      have h1 : (initiateStep s).1 = false := by simp [initiateStep, h]
      have h2 : stepFlag CloseOp.initiateClose s ≠ 0 := stepFlag_ne_zero h _
      simp [winners, h1]
      exact ih h2
    | shutdownBody => simpa [winners] using ih (stepFlag_ne_zero h CloseOp.shutdownBody)
    | refDecReachZero => simpa [winners] using ih (stepFlag_ne_zero h CloseOp.refDecReachZero)
    | refDecPositive => simpa [winners] using ih (stepFlag_ne_zero h CloseOp.refDecPositive)
    | destructorDone => simpa [winners] using ih (stepFlag_ne_zero h CloseOp.destructorDone)
    | awaitClose => simpa [winners] using ih (stepFlag_ne_zero h CloseOp.awaitClose)

/-- Over any operation sequence, at most one call wins the close race. -/
lemma winners_le_one (ops : List CloseOp) : ∀ s : Nat, winners s ops ≤ 1 := by
  induction ops with
  | nil => intro s; simp [winners]
  | cons op rest ih =>
    intro s
    cases op with
    | initiateClose =>
      by_cases h : s = 0
      · subst h
        have h2 : stepFlag CloseOp.initiateClose 0 = 1 := by decide
        simp [winners, initiateStep, h2]
        have := winners_eq_zero rest (s := 1) (by omega)
        omega
      · have h1 : (initiateStep s).1 = false := by simp [initiateStep, h]
        simp [winners, h1]
        exact ih _
    | shutdownBody => simpa [winners] using ih _
    | refDecReachZero => simpa [winners] using ih _
    | refDecPositive => simpa [winners] using ih _
    | destructorDone => simpa [winners] using ih _
    | awaitClose => simpa [winners] using ih _

/-- C1.  A call to `InitiateCloseRequest` on the initial flag value 0
returns true and moves the flag to 1 (REQUESTED); a call on any other
flag value returns false and leaves the flag unchanged; hence over every
sequence of protocol operations started at a fresh object at most one
call observes true, so the `Shutdown` body, run exactly by the winning
call, runs at most once per instance. -/
theorem c1_initiate_close_single_winner :
    initiateStep 0 = (true, 1)
  ∧ (∀ s : Nat, s ≠ 0 → initiateStep s = (false, s))
  ∧ (∀ ops : List CloseOp, winners 0 ops ≤ 1) := by
  refine ⟨rfl, ?_, ?_⟩
  · intro s h
    simp [initiateStep, h]
  · intro ops
    exact winners_le_one ops 0

/-- Witness for C1 at concrete inputs. -/
theorem c1_witness :
    initiateStep 0 = (true, 1)
  ∧ initiateStep 1 = (false, 1)
  ∧ winners 0 [CloseOp.initiateClose, CloseOp.initiateClose,
      CloseOp.refDecReachZero, CloseOp.initiateClose] ≤ 1 :=
  ⟨c1_initiate_close_single_winner.1,
   c1_initiate_close_single_winner.2.1 1 (by decide),
   c1_initiate_close_single_winner.2.2 _⟩

/-- Every protocol operation keeps the flag in the interval 0 to 3 and
never decreases it. -/
lemma stepFlag_mono (op : CloseOp) (s : Nat) (h : s ≤ 3) :
    s ≤ stepFlag op s ∧ stepFlag op s ≤ 3 := by
  cases op <;> (simp [stepFlag, initiateStep]; try (first | (split <;> omega) | omega))

/-- Along any run the flag never decreases and stays in 0 to 3. -/
lemma runFlag_mono (ops : List CloseOp) : ∀ s : Nat, s ≤ 3 →
    s ≤ runFlag s ops ∧ runFlag s ops ≤ 3 := by
  induction ops with
  | nil => intro s h; exact ⟨le_refl s, h⟩
  | cons op rest ih =>
    intro s h
    have h1 := stepFlag_mono op s h
    have h2 := ih (stepFlag op s) h1.2
    exact ⟨le_trans h1.1 h2.1, h2.2⟩

/-- C10.  The close flag is monotonically non decreasing over every
sequence of protocol operations: each single operation leaves the flag
greater or equal and within 0 to 3, and so does every run, so no
operation ever resets the flag or moves it to a smaller value. -/
theorem c10_close_flag_monotone :
    (∀ (op : CloseOp) (s : Nat), s ≤ 3 → s ≤ stepFlag op s ∧ stepFlag op s ≤ 3)
  ∧ (∀ (ops : List CloseOp) (s : Nat), s ≤ 3 →
        s ≤ runFlag s ops ∧ runFlag s ops ≤ 3) :=
  ⟨stepFlag_mono, fun ops s h => runFlag_mono ops s h⟩

/-- Witness for C10 at concrete inputs. -/
theorem c10_witness :
    (1 ≤ stepFlag CloseOp.refDecReachZero 1 ∧ stepFlag CloseOp.refDecReachZero 1 ≤ 3)
  ∧ (0 ≤ runFlag 0 [CloseOp.initiateClose, CloseOp.refDecReachZero, CloseOp.destructorDone]
      ∧ runFlag 0 [CloseOp.initiateClose, CloseOp.refDecReachZero, CloseOp.destructorDone] ≤ 3) :=
  ⟨c10_close_flag_monotone.1 CloseOp.refDecReachZero 1 (by decide),
   c10_close_flag_monotone.2
     [CloseOp.initiateClose, CloseOp.refDecReachZero, CloseOp.destructorDone] 0 (by decide)⟩

/-- C4 counterexample.  The close protocol passes through a fourth flag
value: after a close request, the decrement that reaches zero moves the
flag to 2 (DESTRUCTING, per the comment at line 95 of refobjects.h),
which is none of NOT_REQUESTED (0), REQUESTED (1), DESTRUCTOR_DONE (3),
so the flag does not take exactly three values. -/
theorem c4_counterexample :
    runFlag 0 [CloseOp.initiateClose, CloseOp.refDecReachZero] = 2
  ∧ runFlag 0 [CloseOp.initiateClose, CloseOp.refDecReachZero] ≠ 0
  ∧ runFlag 0 [CloseOp.initiateClose, CloseOp.refDecReachZero] ≠ 1
  ∧ runFlag 0 [CloseOp.initiateClose, CloseOp.refDecReachZero] ≠ 3 := by
  decide

/-- C4 amended.  The close flag takes exactly the four values 0
(NOT_REQUESTED), 1 (REQUESTED), 2 (DESTRUCTING), 3 (DESTRUCTOR_DONE):
every reachable flag value is one of these four, and each of the four is
reached by some run of the protocol. -/
theorem c4_amended_four_values :
    (∀ ops : List CloseOp, runFlag 0 ops = 0 ∨ runFlag 0 ops = 1
        ∨ runFlag 0 ops = 2 ∨ runFlag 0 ops = 3)
  ∧ runFlag 0 [] = 0
  ∧ runFlag 0 [CloseOp.initiateClose] = 1
  ∧ runFlag 0 [CloseOp.initiateClose, CloseOp.refDecReachZero] = 2
  ∧ runFlag 0 [CloseOp.initiateClose, CloseOp.refDecReachZero, CloseOp.destructorDone] = 3 := by
  refine ⟨?_, rfl, rfl, rfl, rfl⟩
  intro ops
  have := (runFlag_mono ops 0 (by omega)).2
  omega

/-- C6.  `AwaitCloseAndDestructor` returns only once the flag has reached
DONE: whenever the wait loop returns at observation index i, the flag
observed there is 3; and a call that observes 3 at its first look returns
immediately, at index 0, without a blocking iteration. -/
theorem c6_await_returns_only_after_done :
    (∀ (obs : List Nat) (i : Nat), awaitTrace obs = some i → obs.get? i = some 3)
  ∧ (∀ obs : List Nat, awaitTrace (3 :: obs) = some 0) := by
  constructor
  · intro obs
    induction obs with
    | nil => intro i h; simp [awaitTrace] at h
    | cons f rest ih =>
      intro i h
      by_cases hf : f = 3
      · subst hf
        simp [awaitTrace] at h
        subst h
        rfl
      · simp [awaitTrace, hf] at h
        obtain ⟨j, hj, hji⟩ := h
        subst hji
        simpa [List.get?] using ih j hj
  · intro obs
    simp [awaitTrace]

/-- Witness for C6 at concrete inputs. -/
theorem c6_witness :
    ([0, 1, 3] : List Nat).get? 2 = some 3
  ∧ awaitTrace (3 :: [7, 9]) = some 0 :=
  ⟨c6_await_returns_only_after_done.1 [0, 1, 3] 2 (by decide),
   c6_await_returns_only_after_done.2 [7, 9]⟩

/-- C3 counterexample.  SnapshotObject is one of the four dependent
categories, yet it maintains a registry of another dependent kind: the
header declares `Mutex m_ItrMutex` and
`std::list<class ItrObject *> m_ItrList` inside SnapshotObject (lines 289
to 290), so the dependency structure is not the claimed pure star in
which no dependent maintains a registry of another dependent. -/
theorem c3_counterexample :
    isDependentCategory ClassName.snapshotObject = true
  ∧ isDependentCategory ClassName.itrObject = true
  ∧ registryElemTypes ClassName.snapshotObject ≠ []
  ∧ ClassName.itrObject ∈ registryElemTypes ClassName.snapshotObject := by
  decide

/-- C3 amended.  Every one of the four dependent categories holds exactly
one counted reference and it points to the root DbObject, and no
dependent holds a counted reference to another dependent; however the
registry structure is not purely star shaped: SnapshotObject maintains a
mutex guarded registry `m_ItrList` of ItrObject dependents, while the
other three dependent categories maintain no registry. -/
theorem c3_amended_star_shape :
    (∀ c : ClassName, isDependentCategory c = true →
        countedRefFields c = [ClassName.dbObject])
  ∧ (∀ c : ClassName, isDependentCategory c = true →
        ∀ x ∈ countedRefFields c, isDependentCategory x = false)
  ∧ (∀ c : ClassName, isDependentCategory c = true → c ≠ ClassName.snapshotObject →
        registryElemTypes c = [])
  ∧ registryElemTypes ClassName.snapshotObject = [ClassName.itrObject] := by
  refine ⟨?_, ?_, ?_, rfl⟩
  · intro c hc
    cases c <;> simp_all [isDependentCategory, countedRefFields]
  · intro c hc x hx
    cases c <;> simp_all [isDependentCategory, countedRefFields]
  · intro c hc hne
    cases c <;> simp_all [isDependentCategory, registryElemTypes]

/-- Witness for C3 amended at concrete inputs. -/
theorem c3_witness :
    countedRefFields ClassName.columnFamilyObject = [ClassName.dbObject]
  ∧ isDependentCategory ClassName.dbObject = false
  ∧ registryElemTypes ClassName.itrObject = [] :=
  ⟨c3_amended_star_shape.1 ClassName.columnFamilyObject (by decide),
   c3_amended_star_shape.2.1 ClassName.itrObject (by decide)
     ClassName.dbObject (by decide),
   c3_amended_star_shape.2.2.1 ClassName.itrObject (by decide) (by decide)⟩

/-- C2 counterexample.  After the close sequence of the root has started
(flag no longer 0), the column family registration still inserts the
dependent into the registry and the dependent is still constructed; no
boolean failure exists, because `AddColumnFamilyReference` is declared
with return type void in the header (line 212), unlike the iterator
registration `AddReference` (line 218). -/
theorem c2_counterexample :
    (sysRun initDb [SysOp.createDep Cat.snap 1, SysOp.rootClose]).m_CloseRequested ≠ 0
  ∧ 7 ∈ (AddColumnFamilyReference
      (sysRun initDb [SysOp.createDep Cat.snap 1, SysOp.rootClose]) 7).m_ColumnFamilyList
  ∧ (CreateColumnFamilyObject
      (sysRun initDb [SysOp.createDep Cat.snap 1, SysOp.rootClose]) 7).1 = some 7 := by
  decide

/-- C2 amended.  Only the iterator category has a close guarded
registration: `AddReference` called after the close sequence has started
returns false and does not insert, and iterator construction then fails;
called before, it inserts and returns true.  The column family, snapshot
and log iterator registrations are declared void, insert unconditionally,
and their dependents are always constructed. -/
theorem c2_amended_registration :
    (∀ (s : DbState) (d : Nat), s.m_CloseRequested ≠ 0 →
        AddReference s d = (false, s)
      ∧ (CreateItrObject s d).1 = none
      ∧ (CreateItrObject s d).2 = s)
  ∧ (∀ (s : DbState) (d : Nat), s.m_CloseRequested = 0 →
        (AddReference s d).1 = true
      ∧ d ∈ (AddReference s d).2.m_ItrList
      ∧ (CreateItrObject s d).1 = some d)
  ∧ (∀ (s : DbState) (d : Nat),
        d ∈ (AddColumnFamilyReference s d).m_ColumnFamilyList
      ∧ (CreateColumnFamilyObject s d).1 = some d)
  ∧ (∀ (s : DbState) (d : Nat),
        d ∈ (AddSnapshotReference s d).m_SnapshotList
      ∧ (CreateSnapshotObject s d).1 = some d)
  ∧ (∀ (s : DbState) (d : Nat),
        d ∈ (AddTLogReference s d).m_TLogItrList
      ∧ (CreateTLogItrObject s d).1 = some d) := by
  refine ⟨?_, ?_, ?_, ?_, ?_⟩
  · intro s d h
    have ha : AddReference s d = (false, s) := by simp [AddReference, h]
    exact ⟨ha, by simp [CreateItrObject, ha], by simp [CreateItrObject, ha]⟩
  · intro s d h
    have ha : AddReference s d =
        (true, { s with m_ItrList := s.m_ItrList ++ [d] }) := by
      simp [AddReference, h]
    exact ⟨by simp [ha], by simp [ha], by simp [CreateItrObject, ha]⟩
  · intro s d
    exact ⟨by simp [AddColumnFamilyReference], rfl⟩
  · intro s d
    exact ⟨by simp [AddSnapshotReference], rfl⟩
  · intro s d
    exact ⟨by simp [AddTLogReference], rfl⟩

/-- Witness for C2 amended at concrete inputs. -/
theorem c2_witness :
    AddReference { initDb with m_CloseRequested := 1 } 5 =
      (false, { initDb with m_CloseRequested := 1 })
  ∧ (CreateItrObject { initDb with m_CloseRequested := 1 } 5).1 = none
  ∧ (AddReference initDb 5).1 = true
  ∧ 5 ∈ (AddReference initDb 5).2.m_ItrList
  ∧ 8 ∈ (AddColumnFamilyReference { initDb with m_CloseRequested := 1 } 8).m_ColumnFamilyList :=
  ⟨(c2_amended_registration.1 { initDb with m_CloseRequested := 1 } 5 (by decide)).1,
   (c2_amended_registration.1 { initDb with m_CloseRequested := 1 } 5 (by decide)).2.1,
   (c2_amended_registration.2.1 initDb 5 (by decide)).1,
   (c2_amended_registration.2.1 initDb 5 (by decide)).2.1,
   (c2_amended_registration.2.2.1 { initDb with m_CloseRequested := 1 } 8).1⟩

/-- Appending a fresh element keeps a registry duplicate free. -/
lemma nodup_append_singleton {l : List Nat} {d : Nat}
    (hn : l.Nodup) (hd : d ∉ l) : (l ++ [d]).Nodup := by
  refine List.Nodup.append hn (List.nodup_singleton d) ?_
  intro x hx hx2
  rw [List.mem_singleton] at hx2
  subst hx2
  exact hd hx

/-- Removing an element of a duplicate free registry shortens it by
exactly one. -/
lemma filter_ne_length (d : Nat) : ∀ l : List Nat, d ∈ l → l.Nodup →
    (l.filter (fun x => x != d)).length + 1 = l.length := by
  intro l
  induction l with
  | nil => intro hd _; simp at hd
  | cons a rest ih =>
    intro hd hn
    rcases List.mem_cons.mp hd with h | h
    · subst h
      have hrest : rest.filter (fun x => x != d) = rest := by
        apply List.filter_eq_self.mpr
        intro x hx
        have hxa : x ≠ d := by
          intro e
          subst e
          exact (List.nodup_cons.mp hn).1 hx
        simpa using hxa
      simp [List.filter_cons, hrest]
    · have hn2 := (List.nodup_cons.mp hn).2
      have hna : (a != d) = true := by
        have : a ≠ d := by
          intro e
          subst e
          exact (List.nodup_cons.mp hn).1 h
        simpa using this
      simp [List.filter_cons, hna]
      have := ih h hn2
      omega

/-- The decrement changes the count and no registry. -/
lemma refDecRoot_fields (t : DbState) :
    (refDecRoot t).m_RefCount = t.m_RefCount - 1
  ∧ (refDecRoot t).m_ItrList = t.m_ItrList
  ∧ (refDecRoot t).m_SnapshotList = t.m_SnapshotList
  ∧ (refDecRoot t).m_ColumnFamilyList = t.m_ColumnFamilyList
  ∧ (refDecRoot t).m_TLogItrList = t.m_TLogItrList := by
  simp only [refDecRoot]
  split <;> exact ⟨rfl, rfl, rfl, rfl, rfl⟩

/-- The decrement either leaves the flag and destructor mark alone, or
runs the destructor exactly when the count reaches zero after a close
request. -/
lemma refDecRoot_close (t : DbState) :
    ((refDecRoot t).m_CloseRequested = t.m_CloseRequested
       ∧ (refDecRoot t).destructorRan = t.destructorRan
       ∧ ¬(t.m_RefCount - 1 = 0 ∧ t.m_CloseRequested = 1))
  ∨ ((refDecRoot t).m_CloseRequested = 3
       ∧ (refDecRoot t).destructorRan = true
       ∧ t.m_RefCount - 1 = 0 ∧ t.m_CloseRequested = 1) := by
  simp only [refDecRoot]
  split
  · next hb => exact Or.inr ⟨rfl, rfl, hb⟩
  · next hb => exact Or.inl ⟨rfl, rfl, hb⟩

/-- The decrement of a reference that is not part of the count equation
preserves the system invariant. -/
lemma refDecRoot_inv {t : DbState}
    (heq : t.m_RefCount = openBit t + regTotal t + 1)
    (hdrf : t.destructorRan = false)
    (hn1 : t.m_ItrList.Nodup) (hn2 : t.m_SnapshotList.Nodup)
    (hn3 : t.m_ColumnFamilyList.Nodup) (hn4 : t.m_TLogItrList.Nodup) :
    SysInv (refDecRoot t) := by
  obtain ⟨hrc, hl1, hl2, hl3, hl4⟩ := refDecRoot_fields t
  have hreg : regTotal (refDecRoot t) = regTotal t := by
    simp [regTotal, hl1, hl2, hl3, hl4]
  rcases refDecRoot_close t with ⟨hcr, hdr2, _⟩ | ⟨hcr, hdr2, hb1, hb2⟩
  · refine ⟨?_, ?_, ?_, ?_, ?_, ?_⟩
    · have hob : openBit (refDecRoot t) = openBit t := by simp [openBit, hcr]
      rw [hrc, hreg, hob]
      omega
    · intro hdd
      rw [hdr2, hdrf] at hdd
      exact absurd hdd (by decide)
    · rw [hl1]; exact hn1
    · rw [hl2]; exact hn2
    · rw [hl3]; exact hn3
    · rw [hl4]; exact hn4
  · have hob : openBit t = 0 := by simp [openBit, hb2]
    have hob2 : openBit (refDecRoot t) = 0 := by simp [openBit, hcr]
    refine ⟨?_, ?_, ?_, ?_, ?_, ?_⟩
    · rw [hrc, hreg, hob2]
      omega
    · intro _
      rw [hrc, hreg]
      constructor <;> omega
    · rw [hl1]; exact hn1
    · rw [hl2]; exact hn2
    · rw [hl3]; exact hn3
    · rw [hl4]; exact hn4

/-- Creation of a dependent preserves the system invariant. -/
lemma createDepStep_inv {s : DbState} (h : SysInv s) (c : Cat) (d : Nat) :
    SysInv (createDepStep s c d) := by
  obtain ⟨hc, hdr, hn1, hn2, hn3, hn4⟩ := h
  by_cases hg : s.m_RefCount = 0 ∨ d ∈ regList s c
  · simpa [createDepStep, hg] using ⟨hc, hdr, hn1, hn2, hn3, hn4⟩
  · push_neg at hg
    obtain ⟨hg0, hgd⟩ := hg
    have hgor : ¬(s.m_RefCount = 0 ∨ d ∈ regList s c) := by
      intro hx
      rcases hx with hx | hx
      · exact hg0 hx
      · exact hgd hx
    have hdrf : s.destructorRan = false := by
      cases hv : s.destructorRan
      · rfl
      · exact absurd (hdr hv).1 hg0
    by_cases hitr : c = Cat.itr ∧ s.m_CloseRequested ≠ 0
    · simpa [createDepStep, hgor, hitr] using ⟨hc, hdr, hn1, hn2, hn3, hn4⟩
    · have hstep : createDepStep s c d = { addDep s c d with m_RefCount := s.m_RefCount + 1 } := by
        simp [createDepStep, hgor, hitr]
      rw [hstep]
      cases c with
      | itr =>
        have hcr : s.m_CloseRequested = 0 := by
          by_contra hx
          exact hitr ⟨rfl, hx⟩
        have hadd : addDep s Cat.itr d = { s with m_ItrList := s.m_ItrList ++ [d] } := by
          simp [addDep, AddReference, hcr]
        rw [hadd]
        refine ⟨?_, ?_, ?_, hn2, hn3, hn4⟩
        · simp [openBit, regTotal]
          simp [openBit, regTotal] at hc
          omega
        · intro hdd
          simp at hdd
          rw [hdrf] at hdd
          exact absurd hdd (by decide)
        · exact nodup_append_singleton hn1 (by simpa [regList] using hgd)
      | snap =>
        refine ⟨?_, ?_, hn1, ?_, hn3, hn4⟩
        · simp [addDep, AddSnapshotReference, openBit, regTotal]
          simp [openBit, regTotal] at hc
          omega
        · intro hdd
          simp [addDep, AddSnapshotReference] at hdd
          rw [hdrf] at hdd
          exact absurd hdd (by decide)
        · simp only [addDep, AddSnapshotReference]
          exact nodup_append_singleton hn2 (by simpa [regList] using hgd)
      | cf =>
        refine ⟨?_, ?_, hn1, hn2, ?_, hn4⟩
        · simp [addDep, AddColumnFamilyReference, openBit, regTotal]
          simp [openBit, regTotal] at hc
          omega
        · intro hdd
          simp [addDep, AddColumnFamilyReference] at hdd
          rw [hdrf] at hdd
          exact absurd hdd (by decide)
        · simp only [addDep, AddColumnFamilyReference]
          exact nodup_append_singleton hn3 (by simpa [regList] using hgd)
      | tlog =>
        refine ⟨?_, ?_, hn1, hn2, hn3, ?_⟩
        · simp [addDep, AddTLogReference, openBit, regTotal]
          simp [openBit, regTotal] at hc
          omega
        · intro hdd
          simp [addDep, AddTLogReference] at hdd
          rw [hdrf] at hdd
          exact absurd hdd (by decide)
        · simp only [addDep, AddTLogReference]
          exact nodup_append_singleton hn4 (by simpa [regList] using hgd)

/-- Teardown of a registered dependent preserves the system invariant. -/
lemma teardownDepStep_inv {s : DbState} (h : SysInv s) (c : Cat) (d : Nat) :
    SysInv (teardownDepStep s c d) := by
  obtain ⟨hc, hdr, hn1, hn2, hn3, hn4⟩ := h
  by_cases hg : d ∈ regList s c
  · have hpos : 0 < regTotal s := by
      have := List.length_pos_of_mem hg
      cases c <;> simp [regList] at this <;> simp [regTotal] <;> omega
    have hdrf : s.destructorRan = false := by
      cases hv : s.destructorRan
      · rfl
      · have := (hdr hv).2
        omega
    have hstep : teardownDepStep s c d = refDecRoot (removeDep s c d) := by
      simp [teardownDepStep, hg]
    rw [hstep]
    cases c with
    | itr =>
      apply refDecRoot_inv
      · have hf := filter_ne_length d s.m_ItrList (by simpa [regList] using hg) hn1
        simp [removeDep, RemoveReference, openBit, regTotal]
        simp [openBit, regTotal] at hc
        omega
      · simpa [removeDep, RemoveReference] using hdrf
      · simp only [removeDep, RemoveReference]
        exact hn1.filter _
      · exact hn2
      · exact hn3
      · exact hn4
    | snap =>
      apply refDecRoot_inv
      · have hf := filter_ne_length d s.m_SnapshotList (by simpa [regList] using hg) hn2
        simp [removeDep, RemoveSnapshotReference, openBit, regTotal]
        simp [openBit, regTotal] at hc
        omega
      · simpa [removeDep, RemoveSnapshotReference] using hdrf
      · exact hn1
      · simp only [removeDep, RemoveSnapshotReference]
        exact hn2.filter _
      · exact hn3
      · exact hn4
    | cf =>
      apply refDecRoot_inv
      · have hf := filter_ne_length d s.m_ColumnFamilyList (by simpa [regList] using hg) hn3
        simp [removeDep, RemoveColumnFamilyReference, openBit, regTotal]
        simp [openBit, regTotal] at hc
        omega
      · simpa [removeDep, RemoveColumnFamilyReference] using hdrf
      · exact hn1
      · exact hn2
      · simp only [removeDep, RemoveColumnFamilyReference]
        exact hn3.filter _
      · exact hn4
    | tlog =>
      apply refDecRoot_inv
      · have hf := filter_ne_length d s.m_TLogItrList (by simpa [regList] using hg) hn4
        simp [removeDep, RemoveTLogReference, openBit, regTotal]
        simp [openBit, regTotal] at hc
        omega
      · simpa [removeDep, RemoveTLogReference] using hdrf
      · exact hn1
      · exact hn2
      · exact hn3
      · simp only [removeDep, RemoveTLogReference]
        exact hn4.filter _
  · simpa [teardownDepStep, hg] using ⟨hc, hdr, hn1, hn2, hn3, hn4⟩

/-- The close request on the root preserves the system invariant. -/
lemma rootCloseStep_inv {s : DbState} (h : SysInv s) :
    SysInv (rootCloseStep s) := by
  obtain ⟨hc, hdr, hn1, hn2, hn3, hn4⟩ := h
  by_cases hcr : s.m_CloseRequested = 0
  · have hdrf : s.destructorRan = false := by
      cases hv : s.destructorRan
      · rfl
      · have h0 := (hdr hv).1
        have : openBit s = 1 := by simp [openBit, hcr]
        omega
    have hstep : rootCloseStep s = refDecRoot { s with m_CloseRequested := 1 } := by
      simp [rootCloseStep, hcr]
    rw [hstep]
    apply refDecRoot_inv
    · have hob : openBit s = 1 := by simp [openBit, hcr]
      simp [openBit, regTotal]
      simp [regTotal] at hc
      omega
    · simpa using hdrf
    · exact hn1
    · exact hn2
    · exact hn3
    · exact hn4
  · simpa [rootCloseStep, hcr] using ⟨hc, hdr, hn1, hn2, hn3, hn4⟩

/-- Every system step preserves the invariant. -/
lemma sysStep_inv {s : DbState} (h : SysInv s) (op : SysOp) :
    SysInv (sysStep s op) := by
  cases op with
  | createDep c d => exact createDepStep_inv h c d
  | teardownDep c d => exact teardownDepStep_inv h c d
  | rootClose => exact rootCloseStep_inv h

/-- The invariant holds along every run. -/
lemma sysRun_inv {s : DbState} (h : SysInv s) (ops : List SysOp) :
    SysInv (sysRun s ops) := by
  induction ops generalizing s with
  | nil => exact h
  | cons op rest ih => exact ih (sysStep_inv h op)

/-- The invariant holds at a fresh root. -/
lemma initDb_inv : SysInv initDb := by
  refine ⟨by decide, by decide, ?_, ?_, ?_, ?_⟩ <;> simp [initDb]

/-- C5.  The physical destructor of the root runs only in a state where
the reference count is zero and all four dependent registries are empty;
and the count cannot be zero while any dependent is still registered, so
it cannot reach zero while a dependent holds its counted reference. -/
theorem c5_destructor_requires_empty_registries (ops : List SysOp) :
    ((sysRun initDb ops).destructorRan = true →
        (sysRun initDb ops).m_RefCount = 0
      ∧ (sysRun initDb ops).m_ItrList = []
      ∧ (sysRun initDb ops).m_SnapshotList = []
      ∧ (sysRun initDb ops).m_ColumnFamilyList = []
      ∧ (sysRun initDb ops).m_TLogItrList = [])
  ∧ ((sysRun initDb ops).m_RefCount = 0 →
        (sysRun initDb ops).m_ItrList = []
      ∧ (sysRun initDb ops).m_SnapshotList = []
      ∧ (sysRun initDb ops).m_ColumnFamilyList = []
      ∧ (sysRun initDb ops).m_TLogItrList = []) := by
  obtain ⟨hc, hdr, _, _, _, _⟩ := sysRun_inv initDb_inv ops
  have hempty : regTotal (sysRun initDb ops) = 0 →
      (sysRun initDb ops).m_ItrList = []
    ∧ (sysRun initDb ops).m_SnapshotList = []
    ∧ (sysRun initDb ops).m_ColumnFamilyList = []
    ∧ (sysRun initDb ops).m_TLogItrList = [] := by
    intro h0
    simp only [regTotal] at h0
    refine ⟨?_, ?_, ?_, ?_⟩ <;> rw [← List.length_eq_zero] <;> omega
  constructor
  · intro h
    obtain ⟨h0, ht⟩ := hdr h
    exact ⟨h0, hempty ht⟩
  · intro h0
    apply hempty
    omega

/-- Witness for C5 at a concrete run. -/
theorem c5_witness :
    (sysRun initDb [SysOp.rootClose]).destructorRan = true
  ∧ (sysRun initDb [SysOp.rootClose]).m_RefCount = 0
  ∧ (sysRun initDb [SysOp.rootClose]).m_ItrList = []
  ∧ (sysRun initDb [SysOp.rootClose]).m_SnapshotList = []
  ∧ (sysRun initDb [SysOp.rootClose]).m_ColumnFamilyList = []
  ∧ (sysRun initDb [SysOp.rootClose]).m_TLogItrList = [] :=
  ⟨by decide,
   (c5_destructor_requires_empty_registries [SysOp.rootClose]).1 (by decide)⟩

/-- No element survives its own removal by filter. -/
lemma not_mem_filter_ne (l : List Nat) (d : Nat) :
    d ∉ l.filter (fun x => x != d) := by
  simp [List.mem_filter]

/-- C8.  The teardown of a dependent performs its three effects in the
order: release the native sub-handle, remove itself from the registry of
the root, release the counted reference to the root; the counted
reference is still held at the first two events and released only at the
last one; and from the removal event on, in particular at the moment the
counted reference to the root is released, the dependent is no longer
present in any registry. -/
theorem c8_shutdown_order (ds : DepState) (s : DbState) (d : Nat)
    (h : ∀ c : Cat, c ≠ ds.cat → d ∉ regList s c) :
    (shutdownTrace ds s d).map (fun e => e.1) =
        [TdEvent.releasedSubHandle, TdEvent.removedFromRegistry, TdEvent.releasedRootRef]
  ∧ (∀ e ∈ shutdownTrace ds s d, e.2.1.subHandle = none)
  ∧ (∀ e ∈ shutdownTrace ds s d, e.1 ≠ TdEvent.releasedRootRef →
        e.2.1.holdsDbRef = ds.holdsDbRef)
  ∧ (∀ e ∈ shutdownTrace ds s d, e.1 = TdEvent.releasedRootRef →
        e.2.1.holdsDbRef = false)
  ∧ (∀ e ∈ shutdownTrace ds s d, e.1 ≠ TdEvent.releasedSubHandle →
        ¬ inAnyRegistry e.2.2 d) := by
  obtain ⟨c0, sh0, hr0⟩ := ds
  have h2 : ∀ c : Cat, c ≠ c0 → d ∉ regList s c := h
  have hrem : ¬ inAnyRegistry (removeDep s c0 d) d := by
    cases c0 with
    | itr =>
      simp [inAnyRegistry, removeDep, RemoveReference, List.mem_filter, not_or]
      exact ⟨h2 Cat.snap (by decide), h2 Cat.cf (by decide), h2 Cat.tlog (by decide)⟩
    | snap =>
      simp [inAnyRegistry, removeDep, RemoveSnapshotReference, List.mem_filter, not_or]
      exact ⟨h2 Cat.itr (by decide), h2 Cat.cf (by decide), h2 Cat.tlog (by decide)⟩
    | cf =>
      simp [inAnyRegistry, removeDep, RemoveColumnFamilyReference, List.mem_filter, not_or]
      exact ⟨h2 Cat.itr (by decide), h2 Cat.snap (by decide), h2 Cat.tlog (by decide)⟩
    | tlog =>
      simp [inAnyRegistry, removeDep, RemoveTLogReference, List.mem_filter, not_or]
      exact ⟨h2 Cat.itr (by decide), h2 Cat.snap (by decide), h2 Cat.cf (by decide)⟩
  have hrem2 : ¬ inAnyRegistry (refDecRoot (removeDep s c0 d)) d := by
    intro hmem
    apply hrem
    obtain ⟨_, hl1, hl2, hl3, hl4⟩ := refDecRoot_fields (removeDep s c0 d)
    simpa [inAnyRegistry, hl1, hl2, hl3, hl4] using hmem
  refine ⟨rfl, ?_, ?_, ?_, ?_⟩
  · intro e he
    simp [shutdownTrace] at he
    rcases he with rfl | rfl | rfl <;> rfl
  · intro e he hne
    simp [shutdownTrace] at he
    rcases he with rfl | rfl | rfl
    · rfl
    · rfl
    · exact absurd rfl hne
  · intro e he heq
    simp [shutdownTrace] at he
    rcases he with rfl | rfl | rfl
    · simp at heq
    · simp at heq
    · rfl
  · intro e he hne
    simp [shutdownTrace] at he
    rcases he with rfl | rfl | rfl
    · exact absurd rfl hne
    · exact hrem
    · exact hrem2

/-- Witness for C8 at concrete inputs. -/
theorem c8_witness :
    (shutdownTrace ⟨Cat.cf, some 9, true⟩
        { initDb with m_ColumnFamilyList := [4], m_RefCount := 2 } 4).map (fun e => e.1) =
      [TdEvent.releasedSubHandle, TdEvent.removedFromRegistry, TdEvent.releasedRootRef]
  ∧ ¬ inAnyRegistry
      (refDecRoot (removeDep
        { initDb with m_ColumnFamilyList := [4], m_RefCount := 2 } Cat.cf 4)) 4 :=
  ⟨(c8_shutdown_order ⟨Cat.cf, some 9, true⟩
      { initDb with m_ColumnFamilyList := [4], m_RefCount := 2 } 4 (by decide)).1,
   (c8_shutdown_order ⟨Cat.cf, some 9, true⟩
      { initDb with m_ColumnFamilyList := [4], m_RefCount := 2 } 4 (by decide)).2.2.2.2
     (TdEvent.releasedRootRef, ⟨Cat.cf, none, false⟩,
       refDecRoot (removeDep
         { initDb with m_ColumnFamilyList := [4], m_RefCount := 2 } Cat.cf 4))
     (by decide) (by decide)⟩

end ERocksDB
